import Mathlib

/-!
# RaidPrototype: player character and test boss

A shallow embedding of `Source/RaidPrototype/RaidPrototypeCharacter.{h,cpp}` and
`Source/RaidPrototype/TestBoss.{h,cpp}`.

Modelling conventions.

* `float` is `Binary32`: IEEE 754 single precision with signed zeros, subnormals, infinities
  and NaN, every sum and every product rounded on its own to nearest, ties to even.  The
  callbacks are written against the interface `FloatArith` (zero, `+`, `*`, unary `-`, `<`,
  `<=`, `==`), of which `Binary32` is the instance; all concrete evaluations are at
  `Binary32`.
* A C++ pointer is an `Option`: `none` is `nullptr`.  Calling a member function through a null
  pointer is the fault `Fault.NullDereference`.
* A callback takes the actor state (and, where it queries the engine, the answers the engine
  gives during that call) and returns either a fault or the new actor state together with the
  list of state-changing engine calls it issued, in program order.
-/

set_option maxRecDepth 4000

namespace RaidPrototype

/-- The identity of an engine object (the address a pointer holds). -/
abbrev ObjectPtr := Nat

/-- Two-component vector, as `FVector2D`. -/
structure FVector2D (F : Type) where
  X : F
  Y : F
deriving DecidableEq, Repr

/-- The dynamic class of an actor found by a hit test, as far as `Cast<ATestBoss>` can tell. -/
inductive AActor where
  | TestBoss (p : ObjectPtr)
  | Other (p : ObjectPtr)
deriving DecidableEq, Repr

/-- The controller possessing the pawn (`APawn::Controller`), with its dynamic class as far as
`Cast<APlayerController>` can tell. -/
structure AController where
  Ptr : ObjectPtr
  IsPlayerController : Bool
deriving DecidableEq, Repr

/-- The fields of the spring arm that the character code reads or writes. -/
structure USpringArmComponent (F : Type) where
  TargetArmLength : F
  bUsePawnControlRotation : Bool
deriving DecidableEq, Repr

/-- The boss actor of `TestBoss.h`. -/
structure ATestBoss (F : Type) where
  BossName : String
  MaxHealth : F
  CurrentHealth : F
deriving DecidableEq, Repr

/-- The player character of `RaidPrototypeCharacter.h`: the data members the callbacks read or
write, plus the inherited `Controller` pointer.  (The `UInputAction` asset pointers are only
read when the bindings are registered and are left out.) -/
structure ARaidPrototypeCharacter (F : Type) where
  CameraBoom : USpringArmComponent F
  DefaultMappingContext : Option ObjectPtr
  ZoomStep : F
  MinZoomLength : F
  MaxZoomLength : F
  MaxHealth : F
  CurrentHealth : F
  CurrentTarget : Option ObjectPtr
  LeftClickTimer : F
  Controller : Option AController
  PlayerControllerRef : Option ObjectPtr
  bIsLeftClickPressed : Bool
  CurrentCursorPos : FVector2D F
  TimeSinceLeftClick : F
deriving DecidableEq, Repr

/-- Answers of the engine to the queries a callback makes while it runs. -/
structure Engine (F : Type) where
  -- The value of `Controller->GetControlRotation().Yaw`.
  ControlRotationYaw : F
  -- Whether `ULocalPlayer::GetSubsystem<UEnhancedInputLocalPlayerSubsystem>` is non-null.
  HasEnhancedInputSubsystem : Bool
  -- What `GetMousePosition(X, Y)` leaves in its two reference arguments, given their
  -- previous contents.
  GetMousePosition : FVector2D F → FVector2D F
  -- The value of `CursorHitResult.GetActor()` after `GetHitResultUnderCursor`; `none` when
  -- nothing is hit.
  HitActor : Option AActor

/-- Axis selector of `FRotationMatrix::GetUnitAxis`. -/
inductive EAxis where
  | X
  | Y
deriving DecidableEq, Repr

/-- State-changing calls into the engine, with the arguments as the character code passes
them (before any implicit conversion at the call). -/
inductive EngineCall (F : Type) where
  | SetShowMouseCursor (pc : ObjectPtr) (bShow : Bool)
  | AddMappingContext (Context : Option ObjectPtr) (Priority : Nat)
  -- The call `AddMovementInput(FRotationMatrix(FRotator(0, Yaw, 0)).GetUnitAxis(Axis), Scale)`.
  | AddMovementInput (Axis : EAxis) (Yaw : F) (Scale : F)
  | AddControllerYawInput (Val : F)
  | AddControllerPitchInput (Val : F)
  | SetMouseLocation (pc : ObjectPtr) (X : F) (Y : F)
deriving DecidableEq, Repr

/-- The ways a callback can go wrong. -/
inductive Fault where
  | NullDereference
deriving DecidableEq, Repr

/-- Outcome of a callback: a fault, or the new state and the engine calls issued. -/
abbrev Outcome (F : Type) := Except Fault (ARaidPrototypeCharacter F × List (EngineCall F))

/-- The cast `Cast<ATestBoss>(Actor)`: the boss pointer when the actor is a boss, null otherwise. -/
def CastATestBoss : Option AActor → Option ObjectPtr
  | some (AActor.TestBoss p) => some p
  | some (AActor.Other _) => none
  | none => none

/-- The cast `Cast<APlayerController>(Controller)`. -/
def CastAPlayerController : Option AController → Option ObjectPtr
  | some c => if c.IsPlayerController then some c.Ptr else none
  | none => none

/-! ## The `float` type -/

/-- The operations of the `float` type that the character code uses, with the facts about
its comparisons that the proofs rely on: `<` implies `<=`, a value that takes part in a true
`<=` is `<=` itself (it is not a NaN), and negation does not change a comparison with zero.
No law of exact arithmetic is assumed of `+` and `*`. -/
class FloatArith (F : Type) extends Zero F, Add F, Mul F, Neg F, LT F, LE F where
  -- The comparison `a == b` (not the identity of bit patterns: the two zeros compare equal
  -- and a NaN compares unequal to everything).
  feq : F → F → Bool
  decLt : ∀ a b : F, Decidable (a < b)
  decLe : ∀ a b : F, Decidable (a ≤ b)
  le_of_lt : ∀ a b : F, a < b → a ≤ b
  le_self_left : ∀ a b : F, a ≤ b → a ≤ a
  le_self_right : ∀ a b : F, a ≤ b → b ≤ b
  feq_neg_zero : ∀ a : F, feq (-a) 0 = feq a 0

/-- Decision procedure for `<` on floats. -/
instance FloatArith.instDecidableLt {F : Type} [FloatArith F] (a b : F) : Decidable (a < b) :=
  FloatArith.decLt a b

/-- Decision procedure for `<=` on floats. -/
instance FloatArith.instDecidableLe {F : Type} [FloatArith F] (a b : F) : Decidable (a ≤ b) :=
  FloatArith.decLe a b

/-- An IEEE 754 binary32 value (`float`), as its three bit fields. -/
structure Binary32 where
  sign : Bool
  expo : Fin 256
  frac : Fin 8388608
deriving DecidableEq, Repr

namespace Binary32

/-- The value with the given 32-bit pattern. -/
def ofBits (b : Nat) : Binary32 :=
  { sign := decide (b / 2147483648 % 2 = 1)
    expo := ⟨b / 8388608 % 256, Nat.mod_lt _ (by decide)⟩
    frac := ⟨b % 8388608, Nat.mod_lt _ (by decide)⟩ }

/-- The 32-bit pattern of a value. -/
def toBits (x : Binary32) : Nat :=
  (if x.sign then 2147483648 else 0) + x.expo.val * 8388608 + x.frac.val

/-- Whether the value is a NaN. -/
def isNaN (x : Binary32) : Bool :=
  x.expo.val == 255 && x.frac.val != 0

/-- Whether the value is an infinity. -/
def isInf (x : Binary32) : Bool :=
  x.expo.val == 255 && x.frac.val == 0

/-- The quiet NaN produced by invalid operations. -/
def NaN : Binary32 :=
  { sign := false, expo := 255, frac := 4194304 }

/-- Infinity of the given sign. -/
def Inf (sign : Bool) : Binary32 :=
  { sign := sign, expo := 255, frac := 0 }

/-- Zero of the given sign. -/
def signedZero (sign : Bool) : Binary32 :=
  { sign := sign, expo := 0, frac := 0 }

/-- Magnitude of a finite value, in units of 2^-149. -/
def units (x : Binary32) : Nat :=
  if x.expo.val = 0 then x.frac.val else (8388608 + x.frac.val) <<< (x.expo.val - 1)

/-- Order key: the sign-magnitude integer of the bit pattern.  On values that are not NaN it
is strictly increasing in the value, with both zeros at 0. -/
def key (x : Binary32) : Int :=
  if x.sign then -((x.expo.val * 8388608 + x.frac.val : Nat) : Int)
  else ((x.expo.val * 8388608 + x.frac.val : Nat) : Int)

/-- The value with significand `q` (at most 2^24) whose last bit has weight 2^(s-149). -/
def encode (sign : Bool) (q s : Nat) : Binary32 :=
  if q < 8388608 then
    { sign := sign, expo := 0, frac := ⟨q % 8388608, Nat.mod_lt _ (by decide)⟩ }
  else if q < 16777216 then
    if s + 1 ≥ 255 then Inf sign
    else { sign := sign, expo := ⟨(s + 1) % 256, Nat.mod_lt _ (by decide)⟩,
           frac := ⟨(q - 8388608) % 8388608, Nat.mod_lt _ (by decide)⟩ }
  else
    if s + 2 ≥ 255 then Inf sign
    else { sign := sign, expo := ⟨(s + 2) % 256, Nat.mod_lt _ (by decide)⟩, frac := 0 }

/-- Position of the leading one bit of a positive number below 2^512 (its base-2 logarithm,
rounded down), found by halving the search interval. -/
def log2 (n : Nat) : Nat :=
  ([256, 128, 64, 32, 16, 8, 4, 2, 1].foldl
    (fun (p : Nat × Nat) k => if p.2 >>> k = 0 then p else (p.1 + k, p.2 >>> k)) (0, n)).1

/-- Round to nearest, ties to even: the binary32 value nearest to `N / 2^drop` units of
2^-149, with the given sign.  A magnitude of 2^128 or more overflows to infinity. -/
def round (sign : Bool) (N drop : Nat) : Binary32 :=
  if N = 0 then signedZero sign
  else if N >>> (277 + drop) ≠ 0 then Inf sign
  else
    let s := log2 N - (drop + 23)
    let d := s + drop
    let q0 := N >>> d
    let r := N - (q0 <<< d)
    let q := if 1 <<< d < 2 * r ∨ (2 * r = 1 <<< d ∧ q0 % 2 = 1) then q0 + 1 else q0
    encode sign q s

/-- Negation: flips the sign bit. -/
def neg (x : Binary32) : Binary32 :=
  { x with sign := !x.sign }

/-- Addition, rounded to nearest even. -/
def add (a b : Binary32) : Binary32 :=
  if a.isNaN || b.isNaN then NaN
  else if a.isInf then (if b.isInf && (a.sign != b.sign) then NaN else a)
  else if b.isInf then b
  else if a.sign = b.sign then round a.sign (a.units + b.units) 0
  else if b.units < a.units then round a.sign (a.units - b.units) 0
  else if a.units < b.units then round b.sign (b.units - a.units) 0
  else signedZero false

/-- Multiplication, rounded to nearest even. -/
def mul (a b : Binary32) : Binary32 :=
  if a.isNaN || b.isNaN then NaN
  else if a.isInf then (if b.units = 0 then NaN else Inf (a.sign != b.sign))
  else if b.isInf then (if a.units = 0 then NaN else Inf (a.sign != b.sign))
  else round (a.sign != b.sign) (a.units * b.units) 149

/-- The comparison `a < b`. -/
def lt (a b : Binary32) : Bool :=
  !a.isNaN && !b.isNaN && decide (a.key < b.key)

/-- The comparison `a <= b`. -/
def le (a b : Binary32) : Bool :=
  !a.isNaN && !b.isNaN && decide (a.key ≤ b.key)

/-- The comparison `a == b`. -/
def feq (a b : Binary32) : Bool :=
  !a.isNaN && !b.isNaN && decide (a.key = b.key)

/-- Conversion of a natural number, rounded to nearest even. -/
def ofNat (n : Nat) : Binary32 :=
  round false (n <<< 149) 0

end Binary32

/-- Numerals denote the nearest binary32 value. -/
instance Binary32.instOfNat (n : Nat) : OfNat Binary32 n :=
  ⟨Binary32.ofNat n⟩

/-- The arithmetic of `float`. -/
instance Binary32.instFloatArith : FloatArith Binary32 where
  zero := Binary32.ofNat 0
  add := Binary32.add
  mul := Binary32.mul
  neg := Binary32.neg
  lt a b := Binary32.lt a b = true
  le a b := Binary32.le a b = true
  feq := Binary32.feq
  decLt a b := inferInstanceAs (Decidable (Binary32.lt a b = true))
  decLe a b := inferInstanceAs (Decidable (Binary32.le a b = true))
  le_of_lt := by
    intro a b h
    change Binary32.lt a b = true at h
    change Binary32.le a b = true
    simp only [Binary32.lt, Binary32.le, Bool.and_eq_true, decide_eq_true_eq] at h ⊢
    exact ⟨h.1, Int.le_of_lt h.2⟩
  le_self_left := by
    intro a b h
    change Binary32.le a b = true at h
    change Binary32.le a a = true
    simp only [Binary32.le, Bool.and_eq_true, decide_eq_true_eq] at h ⊢
    exact ⟨⟨h.1.1, h.1.1⟩, Int.le_refl _⟩
  le_self_right := by
    intro a b h
    change Binary32.le a b = true at h
    change Binary32.le b b = true
    simp only [Binary32.le, Bool.and_eq_true, decide_eq_true_eq] at h ⊢
    exact ⟨⟨h.1.2, h.1.2⟩, Int.le_refl _⟩
  feq_neg_zero := by
    intro a
    change Binary32.feq (Binary32.neg a) (Binary32.ofNat 0) = Binary32.feq a (Binary32.ofNat 0)
    have hk : (Binary32.neg a).key = 0 ↔ a.key = 0 := by
      cases hs : a.sign <;> simp only [Binary32.key, Binary32.neg, hs] <;> simp <;> omega
    have hz : (Binary32.ofNat 0).key = 0 := by decide
    have hn : (Binary32.neg a).isNaN = a.isNaN := rfl
    simp only [Binary32.feq, hn, hz, hk]

/-! ## The callbacks -/

section Model

variable {F : Type}

/-- Modelled from the spec: `FMath::Max` is a function of the engine, not of this repository.
It is the larger of two values, chosen by one `<` test. -/
def FMath.Max [FloatArith F] (A B : F) : F :=
  if B < A then A else B

/-- Modelled from the spec: `FMath::Min` is a function of the engine, not of this repository.
It is the smaller of two values, chosen by one `<` test. -/
def FMath.Min [FloatArith F] (A B : F) : F :=
  if A < B then A else B

/-- Modelled from the spec: `FMath::Clamp` is a function of the engine, not of this repository;
the spec says the arm length is "clamped to [minZoom, maxZoom]".  `Clamp X Min Max` is `X`
brought up to at least `Min` after being brought down to at most `Max`. -/
def FMath.Clamp [FloatArith F] (X MinValue MaxValue : F) : F :=
  FMath.Max (FMath.Min X MaxValue) MinValue

/-- What the constructor `ARaidPrototypeCharacter::ARaidPrototypeCharacter` puts in the camera
boom it creates. -/
def CreateCameraBoom [OfNat F 400] : USpringArmComponent F :=
  { TargetArmLength := 400, bUsePawnControlRotation := true }

/-- The callback `ATestBoss::BeginPlay`.  The base-class call `Super::BeginPlay()` is engine
code and does not touch the members declared in `TestBoss.h`. -/
def ATestBoss.BeginPlay (b : ATestBoss F) : ATestBoss F :=
  { b with CurrentHealth := b.MaxHealth }

namespace ARaidPrototypeCharacter

/-- The callback `ARaidPrototypeCharacter::BeginPlay`.  The base-class call
`Super::BeginPlay()` is engine code and does not touch the members modelled here. -/
def BeginPlay (eng : Engine F) (s : ARaidPrototypeCharacter F) : Outcome F :=
  let s := { s with CurrentHealth := s.MaxHealth }
  match CastAPlayerController s.Controller with
  | some PlayerController =>
    let s := { s with PlayerControllerRef := some PlayerController }
    match s.PlayerControllerRef with
    | none => Except.error Fault.NullDereference
    | some pc =>
      let calls := [EngineCall.SetShowMouseCursor pc true]
      if eng.HasEnhancedInputSubsystem then
        Except.ok (s, calls ++ [EngineCall.AddMappingContext s.DefaultMappingContext 0])
      else
        Except.ok (s, calls)
  | none => Except.ok (s, [])

/-- The callback `ARaidPrototypeCharacter::Tick`: `TimeSinceLeftClick += DeltaTime` is one
float addition. -/
def Tick [FloatArith F] (s : ARaidPrototypeCharacter F) (DeltaTime : F) :
    ARaidPrototypeCharacter F :=
  if s.bIsLeftClickPressed then
    { s with TimeSinceLeftClick := s.TimeSinceLeftClick + DeltaTime }
  else
    s

/-- The callback `ARaidPrototypeCharacter::Move`. -/
def Move (eng : Engine F) (s : ARaidPrototypeCharacter F) (Value : FVector2D F) : Outcome F :=
  let MovementVector := Value
  match s.Controller with
  | some _ =>
    let Yaw := eng.ControlRotationYaw
    Except.ok (s, [EngineCall.AddMovementInput EAxis.X Yaw MovementVector.Y,
                   EngineCall.AddMovementInput EAxis.Y Yaw MovementVector.X])
  | none => Except.ok (s, [])

/-- The callback `ARaidPrototypeCharacter::Look`. -/
def Look (s : ARaidPrototypeCharacter F) (Value : FVector2D F) : Outcome F :=
  if s.bIsLeftClickPressed then
    let LookAxisVector := Value
    match s.Controller with
    | some _ =>
      let calls := [EngineCall.AddControllerYawInput LookAxisVector.X,
                    EngineCall.AddControllerPitchInput LookAxisVector.Y]
      match s.PlayerControllerRef with
      | none => Except.error Fault.NullDereference
      | some pc =>
        Except.ok (s, calls ++
          [EngineCall.SetMouseLocation pc s.CurrentCursorPos.X s.CurrentCursorPos.Y])
    | none => Except.ok (s, [])
  else
    Except.ok (s, [])

/-- The callback `ARaidPrototypeCharacter::LeftClickStarted`. -/
def LeftClickStarted [FloatArith F] (eng : Engine F) (s : ARaidPrototypeCharacter F) :
    Outcome F :=
  let s := { s with bIsLeftClickPressed := true }
  let s := { s with TimeSinceLeftClick := 0 }
  match s.PlayerControllerRef with
  | none => Except.error Fault.NullDereference
  | some pc =>
    let calls := [EngineCall.SetShowMouseCursor pc false]
    let s := { s with CurrentCursorPos := eng.GetMousePosition s.CurrentCursorPos }
    Except.ok (s, calls)

/-- The callback `ARaidPrototypeCharacter::LeftClickCompleted`. -/
def LeftClickCompleted [FloatArith F] (eng : Engine F) (s : ARaidPrototypeCharacter F) :
    Outcome F :=
  let s := { s with bIsLeftClickPressed := false }
  match s.PlayerControllerRef with
  | none => Except.error Fault.NullDereference
  | some pc =>
    let calls := [EngineCall.SetShowMouseCursor pc true]
    if s.TimeSinceLeftClick < s.LeftClickTimer then
      let DetectedActor := eng.HitActor
      match CastATestBoss DetectedActor with
      | some TestBossRef =>
        if s.CurrentTarget ≠ some TestBossRef then
          Except.ok ({ s with CurrentTarget := some TestBossRef }, calls)
        else
          Except.ok (s, calls)
      | none => Except.ok ({ s with CurrentTarget := none }, calls)
    else
      Except.ok (s, calls)

/-- The callback `ARaidPrototypeCharacter::CameraZoom`.  The test `ZoomValue == 0.0f` is the
float comparison, and the new arm length is one float product followed by one float sum. -/
def CameraZoom [FloatArith F] (s : ARaidPrototypeCharacter F) (Value : F) : Outcome F :=
  let ZoomValue := -Value
  if FloatArith.feq ZoomValue 0 = true ∨ s.Controller = none then
    Except.ok (s, [])
  else
    let NewTargetArmLength := s.CameraBoom.TargetArmLength + ZoomValue * s.ZoomStep
    Except.ok ({ s with CameraBoom := { s.CameraBoom with
      TargetArmLength := FMath.Clamp NewTargetArmLength s.MinZoomLength s.MaxZoomLength } }, [])

/-- The frames ticked while the button is held: `Tick` once per frame delta, in order. -/
def TickAll [FloatArith F] (s : ARaidPrototypeCharacter F) (deltas : List F) :
    ARaidPrototypeCharacter F :=
  deltas.foldl Tick s

end ARaidPrototypeCharacter

/-- The sum `0 + d1 + ... + dn` of frame deltas as the code accumulates it: starting from
zero, left to right, one float addition per frame. -/
def AccumulatedTime [FloatArith F] (deltas : List F) : F :=
  deltas.foldl (fun acc d => acc + d) 0

end Model

/-! ## Concrete states used as examples -/

/-- The value `0.1f`. -/
def float_0_1 : Binary32 :=
  Binary32.ofBits 0x3DCCCCCD

/-- The value `0.2f`. -/
def float_0_2 : Binary32 :=
  Binary32.ofBits 0x3E4CCCCD

/-- The value `0.3f`. -/
def float_0_3 : Binary32 :=
  Binary32.ofBits 0x3E99999A

/-- The value `399.9f`, which is 13103923 / 32768. -/
def float_399_9 : Binary32 :=
  Binary32.ofBits 0x43C7F333

/-- A player controller. -/
def examplePlayerController : AController :=
  { Ptr := 7, IsPlayerController := true }

/-- A controller that is not a player controller. -/
def exampleOtherController : AController :=
  { Ptr := 9, IsPlayerController := false }

/-- A character as spawned, before `BeginPlay`, possessed by a player controller. -/
def exampleSpawned : ARaidPrototypeCharacter Binary32 :=
  { CameraBoom := CreateCameraBoom
    DefaultMappingContext := some 3
    ZoomStep := 10
    MinZoomLength := 100
    MaxZoomLength := 300
    MaxHealth := 50
    CurrentHealth := 0
    CurrentTarget := none
    LeftClickTimer := 5
    Controller := some examplePlayerController
    PlayerControllerRef := none
    bIsLeftClickPressed := false
    CurrentCursorPos := { X := 0, Y := 0 }
    TimeSinceLeftClick := 0 }

/-- The same character after `BeginPlay` stored the player controller reference. -/
def examplePlaying : ARaidPrototypeCharacter Binary32 :=
  { exampleSpawned with CurrentHealth := 50, PlayerControllerRef := some 7 }

/-- A character that went through `BeginPlay` with no controller attached. -/
def exampleUnpossessed : ARaidPrototypeCharacter Binary32 :=
  { exampleSpawned with CurrentHealth := 50, Controller := none }

/-- An engine whose cursor is at (12, 34) over boss 41. -/
def exampleEngine : Engine Binary32 :=
  { ControlRotationYaw := 90
    HasEnhancedInputSubsystem := true
    GetMousePosition := fun _ => { X := 12, Y := 34 }
    HitActor := some (AActor.TestBoss 41) }

/-- A character as spawned, before `BeginPlay`, with no controller attached. -/
def exampleSpawnedUnpossessed : ARaidPrototypeCharacter Binary32 :=
  { exampleSpawned with Controller := none }

/-- That character once a player controller has taken possession after `BeginPlay`. -/
def exampleLatePossessed : ARaidPrototypeCharacter Binary32 :=
  { exampleUnpossessed with Controller := some examplePlayerController }

/-- A character possessed by a controller that is not a player controller. -/
def exampleOtherPossessed : ARaidPrototypeCharacter Binary32 :=
  { exampleSpawned with CurrentHealth := 50, Controller := some exampleOtherController }

/-- A character with the button flag set while possessed by a controller that is not a
player controller.  (A value of the state type: the callbacks themselves set the flag only in
`LeftClickStarted`.) -/
def exampleOtherPressed : ARaidPrototypeCharacter Binary32 :=
  { exampleOtherPossessed with bIsLeftClickPressed := true }

/-- A playing character whose zoom range is wide enough for one zoom step either way. -/
def exampleZoomable : ARaidPrototypeCharacter Binary32 :=
  { examplePlaying with MinZoomLength := 100, MaxZoomLength := 1000 }

/-- A zoomable character whose zoom step is `0.1f`. -/
def exampleFineStep : ARaidPrototypeCharacter Binary32 :=
  { exampleZoomable with ZoomStep := float_0_1 }

/-- A character zoomed out to 2^24 with zoom step 1, where consecutive floats are 2 apart. -/
def exampleFarOut : ARaidPrototypeCharacter Binary32 :=
  { examplePlaying with
    CameraBoom := { TargetArmLength := 16777216, bUsePawnControlRotation := true }
    ZoomStep := 1
    MaxZoomLength := 33554432 }

/-- A playing character whose zoom limits are configured the wrong way round. -/
def exampleSwappedLimits : ARaidPrototypeCharacter Binary32 :=
  { examplePlaying with MinZoomLength := 300, MaxZoomLength := 100 }

/-- A playing character that targets boss 41 and has held the button exactly as long as the
threshold. -/
def exampleHeldLong : ARaidPrototypeCharacter Binary32 :=
  { examplePlaying with CurrentTarget := some 41, bIsLeftClickPressed := true,
                        TimeSinceLeftClick := 5 }

/-- A playing character that targets boss 41 and has just pressed the button. -/
def exampleQuickTargeting : ARaidPrototypeCharacter Binary32 :=
  { examplePlaying with CurrentTarget := some 41, bIsLeftClickPressed := true,
                        TimeSinceLeftClick := 1 }

/-- A playing character that targets boss 41, whose click threshold is `0.3f` and whose timer
still holds 5 from an earlier press. -/
def exampleClicker : ARaidPrototypeCharacter Binary32 :=
  { examplePlaying with CurrentTarget := some 41, LeftClickTimer := float_0_3,
                        TimeSinceLeftClick := 5 }

/-- An engine whose cursor is over an actor that is not a boss. -/
def exampleEngineOther : Engine Binary32 :=
  { exampleEngine with HitActor := some (AActor.Other 8) }

/-- An engine whose cursor is over boss 42. -/
def exampleEngineBoss42 : Engine Binary32 :=
  { exampleEngine with HitActor := some (AActor.TestBoss 42) }

/-! ## Auxiliary lemmas -/

open ARaidPrototypeCharacter

section Lemmas

variable {F : Type}

/-- A clamped value lies within the limits, when the limits are ordered. -/
lemma FMath.Clamp_in_range [FloatArith F] (X MinValue MaxValue : F)
    (h : MinValue ≤ MaxValue) :
    MinValue ≤ FMath.Clamp X MinValue MaxValue ∧ FMath.Clamp X MinValue MaxValue ≤ MaxValue := by
  have hmin : MinValue ≤ MinValue := FloatArith.le_self_left _ _ h
  have hmax : MaxValue ≤ MaxValue := FloatArith.le_self_right _ _ h
  unfold FMath.Clamp FMath.Max FMath.Min
  by_cases h1 : X < MaxValue
  · rw [if_pos h1]
    by_cases h2 : MinValue < X
    · rw [if_pos h2]
      exact ⟨FloatArith.le_of_lt _ _ h2, FloatArith.le_of_lt _ _ h1⟩
    · rw [if_neg h2]
      exact ⟨hmin, h⟩
  · rw [if_neg h1]
    by_cases h2 : MinValue < MaxValue
    · rw [if_pos h2]
      exact ⟨h, hmax⟩
    · rw [if_neg h2]
      exact ⟨hmin, h⟩

/-- While the button is held, ticking a list of frames adds them to the timer one by one, in
order, and touches nothing else. -/
lemma TickAll_pressed [FloatArith F] (deltas : List F) (s : ARaidPrototypeCharacter F)
    (h : s.bIsLeftClickPressed = true) :
    TickAll s deltas =
      { s with TimeSinceLeftClick := deltas.foldl (fun acc d => acc + d) s.TimeSinceLeftClick } := by
  induction deltas generalizing s with
  | nil => simp [TickAll]
  | cons d ds ih =>
    have hstep : TickAll s (d :: ds) = TickAll (Tick s d) ds := rfl
    have hp : (Tick s d).bIsLeftClickPressed = true := by simp [Tick, h]
    rw [hstep, ih (Tick s d) hp]
    simp [Tick, h]

/-- While the button is not held, ticking changes nothing. -/
lemma TickAll_released [FloatArith F] (deltas : List F) (s : ARaidPrototypeCharacter F)
    (h : s.bIsLeftClickPressed = false) :
    TickAll s deltas = s := by
  induction deltas with
  | nil => rfl
  | cons d ds ih =>
    have hstep : TickAll s (d :: ds) = TickAll (Tick s d) ds := rfl
    have hd : Tick s d = s := by simp [Tick, h]
    rw [hstep, hd, ih]

/-- Closed form of a release when a player controller reference is held: the button flag is
cleared, the cursor is shown, and the target is re-chosen from the hit test exactly when the
held time is below the threshold. -/
lemma LeftClickCompleted_eq [FloatArith F] (eng : Engine F) (s : ARaidPrototypeCharacter F)
    (pc : ObjectPtr) (hpc : s.PlayerControllerRef = some pc) :
    LeftClickCompleted eng s =
      Except.ok ({ s with
          bIsLeftClickPressed := false
          CurrentTarget :=
            if s.TimeSinceLeftClick < s.LeftClickTimer then CastATestBoss eng.HitActor
            else s.CurrentTarget },
        [EngineCall.SetShowMouseCursor pc true]) := by
  unfold LeftClickCompleted
  simp only [hpc]
  by_cases ht : s.TimeSinceLeftClick < s.LeftClickTimer
  · cases hb : CastATestBoss eng.HitActor with
    | none => simp [ht]
    | some b =>
      by_cases hcur : s.CurrentTarget = some b
      · simp [ht, hcur]
      · simp [ht, hcur]
  · simp [ht]

/-- A release with no player controller reference dereferences a null pointer. -/
lemma LeftClickCompleted_null [FloatArith F] (eng : Engine F) (s : ARaidPrototypeCharacter F)
    (hpc : s.PlayerControllerRef = none) :
    LeftClickCompleted eng s = Except.error Fault.NullDereference := by
  simp [LeftClickCompleted, hpc]

/-- Closed form of a press when a player controller reference is held. -/
lemma LeftClickStarted_eq [FloatArith F] (eng : Engine F) (s : ARaidPrototypeCharacter F)
    (pc : ObjectPtr) (hpc : s.PlayerControllerRef = some pc) :
    LeftClickStarted eng s =
      Except.ok ({ s with
          bIsLeftClickPressed := true
          TimeSinceLeftClick := 0
          CurrentCursorPos := eng.GetMousePosition s.CurrentCursorPos },
        [EngineCall.SetShowMouseCursor pc false]) := by
  simp [LeftClickStarted, hpc]

/-- Closed form of `BeginPlay`. -/
lemma BeginPlay_eq (eng : Engine F) (s : ARaidPrototypeCharacter F) :
    BeginPlay eng s =
      match CastAPlayerController s.Controller with
      | some pc =>
        Except.ok ({ s with CurrentHealth := s.MaxHealth, PlayerControllerRef := some pc },
          if eng.HasEnhancedInputSubsystem then
            [EngineCall.SetShowMouseCursor pc true,
             EngineCall.AddMappingContext s.DefaultMappingContext 0]
          else [EngineCall.SetShowMouseCursor pc true])
      | none => Except.ok ({ s with CurrentHealth := s.MaxHealth }, []) := by
  simp only [BeginPlay]
  cases hc : CastAPlayerController s.Controller with
  | none => rfl
  | some pc =>
    cases hs : eng.HasEnhancedInputSubsystem <;> simp

/-- A press with no player controller reference dereferences a null pointer. -/
lemma LeftClickStarted_null [FloatArith F] (eng : Engine F)
    (s : ARaidPrototypeCharacter F) (hpc : s.PlayerControllerRef = none) :
    LeftClickStarted eng s = Except.error Fault.NullDereference := by
  simp [LeftClickStarted, hpc]

/-- The guard of `CameraZoom` is taken exactly when the input compares equal to zero or no
controller is attached: negation does not change a comparison with zero. -/
lemma CameraZoom_guard_iff [FloatArith F] (s : ARaidPrototypeCharacter F) (Value : F) :
    (FloatArith.feq (-Value) 0 = true ∨ s.Controller = none) ↔
      (FloatArith.feq Value 0 = true ∨ s.Controller = none) := by
  rw [FloatArith.feq_neg_zero]

/-- Closed form of `CameraZoom` when its guard does not return early. -/
lemma CameraZoom_applied [FloatArith F] (s : ARaidPrototypeCharacter F) (Value : F)
    (hg : ¬ (FloatArith.feq Value 0 = true ∨ s.Controller = none)) :
    CameraZoom s Value = Except.ok ({ s with CameraBoom := { s.CameraBoom with
      TargetArmLength :=
        FMath.Clamp (s.CameraBoom.TargetArmLength + (-Value) * s.ZoomStep)
          s.MinZoomLength s.MaxZoomLength } }, []) := by
  unfold CameraZoom
  exact if_neg (fun hg2 => hg ((CameraZoom_guard_iff s Value).mp hg2))

/-- Closed form of `CameraZoom` when its guard returns early. -/
lemma CameraZoom_skipped [FloatArith F] (s : ARaidPrototypeCharacter F) (Value : F)
    (hg : FloatArith.feq Value 0 = true ∨ s.Controller = none) :
    CameraZoom s Value = Except.ok (s, []) := by
  unfold CameraZoom
  exact if_pos ((CameraZoom_guard_iff s Value).mpr hg)

end Lemmas

/-! ## Health initialisation -/

section Claims

variable {F : Type}

/-- C1: `BeginPlay` of the player character always completes, and in the state it leaves
`CurrentHealth` equals `MaxHealth` and `MaxHealth` is what it was, whatever the controller is
(none, a player controller, or another controller); `BeginPlay` of the boss leaves
`CurrentHealth` equal to `MaxHealth` and `MaxHealth` what it was. -/
theorem BeginPlay_sets_health_to_max (eng : Engine F) (s : ARaidPrototypeCharacter F)
    (b : ATestBoss F) :
    (∃ s1 calls, BeginPlay eng s = Except.ok (s1, calls) ∧
        s1.CurrentHealth = s1.MaxHealth ∧ s1.MaxHealth = s.MaxHealth) ∧
    ((ATestBoss.BeginPlay b).CurrentHealth = (ATestBoss.BeginPlay b).MaxHealth ∧
      (ATestBoss.BeginPlay b).MaxHealth = b.MaxHealth) := by
  refine ⟨?_, rfl, rfl⟩
  rw [BeginPlay_eq]
  cases CastAPlayerController s.Controller with
  | none => exact ⟨_, _, rfl, rfl, rfl⟩
  | some pc => exact ⟨_, _, rfl, rfl, rfl⟩

/-! ## Target selection on release -/

/-- C3: when the held time is below the threshold and the hit test under the cursor returns
the boss `B`, every completed `LeftClickCompleted` leaves `CurrentTarget` equal to `B`
whatever it was before (so it is still `B` when it already was), running the same release
again from the state reached gives that same state and hence the same `CurrentTarget`, and
the release does complete whenever a player controller reference is held. -/
theorem LeftClickCompleted_selects_boss [FloatArith F] (eng : Engine F)
    (s : ARaidPrototypeCharacter F)
    (B : ObjectPtr) (ht : s.TimeSinceLeftClick < s.LeftClickTimer)
    (hhit : eng.HitActor = some (AActor.TestBoss B)) :
    (∀ s1 calls, LeftClickCompleted eng s = Except.ok (s1, calls) →
        s1.CurrentTarget = some B ∧ LeftClickCompleted eng s1 = Except.ok (s1, calls)) ∧
    (∀ pc, s.PlayerControllerRef = some pc →
        ∃ s1 calls, LeftClickCompleted eng s = Except.ok (s1, calls)) := by
  have hcast : CastATestBoss eng.HitActor = some B := by simp [hhit, CastATestBoss]
  constructor
  · intro s1 calls h
    cases hpc : s.PlayerControllerRef with
    | none => simp [LeftClickCompleted_null eng s hpc] at h
    | some pc =>
      rw [LeftClickCompleted_eq eng s pc hpc] at h
      simp only [Except.ok.injEq, Prod.mk.injEq] at h
      obtain ⟨h1, h2⟩ := h
      have hpc1 : s1.PlayerControllerRef = some pc := by rw [← h1]; exact hpc
      have ht1 : s1.TimeSinceLeftClick < s1.LeftClickTimer := by rw [← h1]; exact ht
      have hcur1 : s1.CurrentTarget = some B := by rw [← h1]; simp [ht, hcast]
      have hpr1 : s1.bIsLeftClickPressed = false := by rw [← h1]
      refine ⟨hcur1, ?_⟩
      rw [LeftClickCompleted_eq eng s1 pc hpc1, ← h2, if_pos ht1, hcast, ← hcur1, ← hpr1]
  · intro pc hpc
    exact ⟨_, _, LeftClickCompleted_eq eng s pc hpc⟩

/-- C4: when the held time is not below the threshold (equality included), every completed
`LeftClickCompleted` leaves `CurrentTarget` exactly as it was, whatever the hit test would
return, and the release does complete whenever a player controller reference is held. -/
theorem LeftClickCompleted_keeps_target_after_threshold [FloatArith F] (eng : Engine F)
    (s : ARaidPrototypeCharacter F) (ht : ¬ s.TimeSinceLeftClick < s.LeftClickTimer) :
    (∀ s1 calls, LeftClickCompleted eng s = Except.ok (s1, calls) →
        s1.CurrentTarget = s.CurrentTarget) ∧
    (∀ pc, s.PlayerControllerRef = some pc →
        ∃ s1 calls, LeftClickCompleted eng s = Except.ok (s1, calls)) := by
  constructor
  · intro s1 calls h
    cases hpc : s.PlayerControllerRef with
    | none => simp [LeftClickCompleted_null eng s hpc] at h
    | some pc =>
      rw [LeftClickCompleted_eq eng s pc hpc] at h
      simp only [Except.ok.injEq, Prod.mk.injEq] at h
      obtain ⟨h1, _⟩ := h
      subst h1
      simp [ht]
  · intro pc hpc
    exact ⟨_, _, LeftClickCompleted_eq eng s pc hpc⟩

/-- C5: when the held time is below the threshold and the hit test returns no actor or an
actor that is not a boss, every completed `LeftClickCompleted` leaves `CurrentTarget` null
whatever it was before, and the release does complete whenever a player controller reference
is held. -/
theorem LeftClickCompleted_clears_target [FloatArith F] (eng : Engine F)
    (s : ARaidPrototypeCharacter F)
    (ht : s.TimeSinceLeftClick < s.LeftClickTimer)
    (hhit : eng.HitActor = none ∨ ∃ p, eng.HitActor = some (AActor.Other p)) :
    (∀ s1 calls, LeftClickCompleted eng s = Except.ok (s1, calls) →
        s1.CurrentTarget = none) ∧
    (∀ pc, s.PlayerControllerRef = some pc →
        ∃ s1 calls, LeftClickCompleted eng s = Except.ok (s1, calls)) := by
  have hcast : CastATestBoss eng.HitActor = none := by
    rcases hhit with h | ⟨p, h⟩ <;> simp [h, CastATestBoss]
  constructor
  · intro s1 calls h
    cases hpc : s.PlayerControllerRef with
    | none => simp [LeftClickCompleted_null eng s hpc] at h
    | some pc =>
      rw [LeftClickCompleted_eq eng s pc hpc] at h
      simp only [Except.ok.injEq, Prod.mk.injEq] at h
      obtain ⟨h1, _⟩ := h
      subst h1
      simp [ht, hcast]
  · intro pc hpc
    exact ⟨_, _, LeftClickCompleted_eq eng s pc hpc⟩

/-- Witness for C3: a quick click on boss 41 selects it, and releasing again changes nothing. -/
theorem LeftClickCompleted_selects_boss_witness :
    examplePlaying.TimeSinceLeftClick < examplePlaying.LeftClickTimer ∧
    exampleEngine.HitActor = some (AActor.TestBoss 41) ∧
    ∃ s1 calls, LeftClickCompleted exampleEngine examplePlaying = Except.ok (s1, calls) ∧
      s1.CurrentTarget = some 41 ∧
      LeftClickCompleted exampleEngine s1 = Except.ok (s1, calls) := by
  have h := LeftClickCompleted_selects_boss exampleEngine examplePlaying 41 (by decide) rfl
  obtain ⟨s1, calls, hs⟩ := h.2 7 rfl
  exact ⟨by decide, rfl, s1, calls, hs, h.1 s1 calls hs⟩

/-- Witness for C4: a release exactly at the threshold, over another boss than the targeted
one, keeps the target. -/
theorem LeftClickCompleted_keeps_target_after_threshold_witness :
    ¬ exampleHeldLong.TimeSinceLeftClick < exampleHeldLong.LeftClickTimer ∧
    ∃ s1 calls, LeftClickCompleted exampleEngineOther exampleHeldLong = Except.ok (s1, calls) ∧
      s1.CurrentTarget = some 41 := by
  have h := LeftClickCompleted_keeps_target_after_threshold exampleEngineOther exampleHeldLong
    (by decide)
  obtain ⟨s1, calls, hs⟩ := h.2 7 rfl
  exact ⟨by decide, s1, calls, hs, h.1 s1 calls hs⟩

/-- Witness for C5: a quick click on a non-boss actor clears the target. -/
theorem LeftClickCompleted_clears_target_witness :
    exampleQuickTargeting.TimeSinceLeftClick < exampleQuickTargeting.LeftClickTimer ∧
    exampleEngineOther.HitActor = some (AActor.Other 8) ∧
    exampleQuickTargeting.CurrentTarget = some 41 ∧
    ∃ s1 calls,
      LeftClickCompleted exampleEngineOther exampleQuickTargeting = Except.ok (s1, calls) ∧
      s1.CurrentTarget = none := by
  have h := LeftClickCompleted_clears_target exampleEngineOther exampleQuickTargeting
    (by decide) (Or.inr ⟨8, rfl⟩)
  obtain ⟨s1, calls, hs⟩ := h.2 7 rfl
  exact ⟨by decide, rfl, rfl, s1, calls, hs, h.1 s1 calls hs⟩

/-! ## Camera look -/

/-- C6: with the left button not pressed, `Look` completes, issues no engine call at all (so
no yaw input, no pitch input, no cursor reposition) and returns the player state unchanged
in every field, for every look input. -/
theorem Look_noop_when_not_pressed (s : ARaidPrototypeCharacter F) (Value : FVector2D F)
    (h : s.bIsLeftClickPressed = false) :
    Look s Value = Except.ok (s, []) := by
  simp [Look, h]

/-- Witness for C6. -/
theorem Look_noop_when_not_pressed_witness :
    examplePlaying.bIsLeftClickPressed = false ∧
    Look examplePlaying { X := 3, Y := -2 } = Except.ok (examplePlaying, []) :=
  ⟨rfl, Look_noop_when_not_pressed examplePlaying { X := 3, Y := -2 } rfl⟩

/-! ## Camera zoom -/

/-- C8: when the zoom input is exactly zero (it compares equal to `0.0f`) or no controller is
attached, `CameraZoom` completes and returns the player state unchanged in every field,
`TargetArmLength` included, issuing no engine call. -/
theorem CameraZoom_ignored [FloatArith F] (s : ARaidPrototypeCharacter F) (Value : F)
    (h : FloatArith.feq Value 0 = true ∨ s.Controller = none) :
    CameraZoom s Value = Except.ok (s, []) :=
  CameraZoom_skipped s Value h

/-- Witness for C8: zero input (of either sign) with a controller attached, and non-zero
input with none. -/
theorem CameraZoom_ignored_witness :
    CameraZoom examplePlaying 0 = Except.ok (examplePlaying, []) ∧
    CameraZoom examplePlaying (-0) = Except.ok (examplePlaying, []) ∧
    exampleUnpossessed.Controller = none ∧
    CameraZoom exampleUnpossessed 3 = Except.ok (exampleUnpossessed, []) :=
  ⟨CameraZoom_ignored examplePlaying 0 (Or.inl rfl),
    CameraZoom_ignored examplePlaying (-0) (Or.inl rfl), rfl,
    CameraZoom_ignored exampleUnpossessed 3 (Or.inr rfl)⟩

/-- C2, as stated, fails: with the arm length 400 set by the constructor and the limits
[100, 300], a zero zoom input returns the state unchanged, so the arm length stays above
`MaxZoomLength`; and with limits the wrong way round (300 above 100) a zoom step leaves an
arm length that is not within the limits. -/
theorem CameraZoom_arm_length_out_of_range :
    (CameraZoom examplePlaying 0 = Except.ok (examplePlaying, []) ∧
      examplePlaying.CameraBoom.TargetArmLength = 400 ∧ examplePlaying.MaxZoomLength = 300 ∧
      ¬ (examplePlaying.MinZoomLength ≤ examplePlaying.CameraBoom.TargetArmLength ∧
          examplePlaying.CameraBoom.TargetArmLength ≤ examplePlaying.MaxZoomLength)) ∧
    (∃ s1, CameraZoom exampleSwappedLimits 1 = Except.ok (s1, []) ∧
      ¬ (s1.MinZoomLength ≤ s1.CameraBoom.TargetArmLength ∧
          s1.CameraBoom.TargetArmLength ≤ s1.MaxZoomLength)) := by
  refine ⟨⟨rfl, rfl, rfl, by decide⟩, ⟨_, rfl, by decide⟩⟩

/-- C2, amended: when `MinZoomLength ≤ MaxZoomLength`, and either the zoom is applied (the
input is non-zero and a controller is attached) or the arm length was already within the
limits, `CameraZoom` completes and leaves `TargetArmLength` within
[`MinZoomLength`, `MaxZoomLength`], the limits themselves being unchanged. -/
theorem CameraZoom_arm_length_in_range [FloatArith F] (s : ARaidPrototypeCharacter F)
    (Value : F) (hlim : s.MinZoomLength ≤ s.MaxZoomLength)
    (h : (FloatArith.feq Value 0 = false ∧ s.Controller ≠ none) ∨
      (s.MinZoomLength ≤ s.CameraBoom.TargetArmLength ∧
        s.CameraBoom.TargetArmLength ≤ s.MaxZoomLength)) :
    ∃ s1 calls, CameraZoom s Value = Except.ok (s1, calls) ∧
      s1.MinZoomLength = s.MinZoomLength ∧ s1.MaxZoomLength = s.MaxZoomLength ∧
      s1.MinZoomLength ≤ s1.CameraBoom.TargetArmLength ∧
      s1.CameraBoom.TargetArmLength ≤ s1.MaxZoomLength := by
  by_cases hg : FloatArith.feq Value 0 = true ∨ s.Controller = none
  · rcases h with ⟨hv, hc⟩ | ⟨hlo, hhi⟩
    · rcases hg with hz | hn
      · rw [hv] at hz
        exact absurd hz (by decide)
      · exact absurd hn hc
    · exact ⟨s, [], CameraZoom_skipped s Value hg, rfl, rfl, hlo, hhi⟩
  · exact ⟨_, _, CameraZoom_applied s Value hg, rfl, rfl,
      (FMath.Clamp_in_range _ _ _ hlim).1, (FMath.Clamp_in_range _ _ _ hlim).2⟩

/-- Witness for C2, amended: one zoom step from 400 with limits [100, 300] lands on 300. -/
theorem CameraZoom_arm_length_in_range_witness :
    examplePlaying.MinZoomLength ≤ examplePlaying.MaxZoomLength ∧
    (FloatArith.feq (1 : Binary32) 0 = false ∧ examplePlaying.Controller ≠ none) ∧
    ∃ s1 calls, CameraZoom examplePlaying 1 = Except.ok (s1, calls) ∧
      s1.MinZoomLength = examplePlaying.MinZoomLength ∧
      s1.MaxZoomLength = examplePlaying.MaxZoomLength ∧
      s1.MinZoomLength ≤ s1.CameraBoom.TargetArmLength ∧
      s1.CameraBoom.TargetArmLength ≤ s1.MaxZoomLength :=
  ⟨by decide, ⟨by decide, by decide⟩,
    CameraZoom_arm_length_in_range examplePlaying 1 (by decide)
      (Or.inl ⟨by decide, by decide⟩)⟩

/-- C7, as stated, fails: from arm length 400 with step 10 and limits [100, 1000], the zoom
input 1 gives arm length 390, while clamp(400 + 1 * 10, 100, 1000) is 410. -/
theorem CameraZoom_moves_against_input :
    ∃ s1, CameraZoom exampleZoomable 1 = Except.ok (s1, []) ∧
      s1.CameraBoom.TargetArmLength = 390 ∧
      FMath.Clamp (exampleZoomable.CameraBoom.TargetArmLength + 1 * exampleZoomable.ZoomStep)
        exampleZoomable.MinZoomLength exampleZoomable.MaxZoomLength = 410 ∧
      s1.CameraBoom.TargetArmLength ≠
        FMath.Clamp (exampleZoomable.CameraBoom.TargetArmLength + 1 * exampleZoomable.ZoomStep)
          exampleZoomable.MinZoomLength exampleZoomable.MaxZoomLength :=
  ⟨_, rfl, rfl, rfl, by decide⟩

/-- C7, amended: with a controller attached and a non-zero zoom input `v` (one that does not
compare equal to `0.0f`), `CameraZoom` completes, sets `TargetArmLength` to
clamp(old `TargetArmLength` + (-`v`) * `ZoomStep`, `MinZoomLength`, `MaxZoomLength`) and
changes no other field, where the negation, the product and the sum are the float operations
of the code, each rounded as `float` arithmetic rounds: the arm length is adjusted by the
negated input times the step and then clamped. -/
theorem CameraZoom_subtracts_input_times_step [FloatArith F]
    (s : ARaidPrototypeCharacter F) (v : F) (hv : FloatArith.feq v 0 = false)
    (hc : s.Controller ≠ none) :
    CameraZoom s v = Except.ok ({ s with CameraBoom := { s.CameraBoom with
      TargetArmLength :=
        FMath.Clamp (s.CameraBoom.TargetArmLength + (-v) * s.ZoomStep)
          s.MinZoomLength s.MaxZoomLength } }, []) := by
  apply CameraZoom_applied
  rintro (hz | hn)
  · rw [hv] at hz
    exact absurd hz (by decide)
  · exact hc hn

/-- Witness for C7, amended: with step `0.1f` the zoom input 1 takes the arm from 400 to the
float 13103923 / 32768 (`399.9f`), the rounded value of 400 + (-1) * 0.1f; and from 2^24 with
step 1 the zoom input -1 leaves the arm at 2^24, the rounded value of 2^24 + 1. -/
theorem CameraZoom_subtracts_input_times_step_witness :
    FloatArith.feq (1 : Binary32) 0 = false ∧ exampleFineStep.Controller ≠ none ∧
    exampleFineStep.CameraBoom.TargetArmLength = 400 ∧
    exampleFineStep.ZoomStep = float_0_1 ∧
    CameraZoom exampleFineStep 1 = Except.ok ({ exampleFineStep with
      CameraBoom := { exampleFineStep.CameraBoom with
        TargetArmLength := FMath.Clamp (400 + (-1) * float_0_1) 100 1000 } }, []) ∧
    FMath.Clamp ((400 : Binary32) + (-1) * float_0_1) 100 1000 = float_399_9 ∧
    float_399_9 = { sign := false, expo := 135, frac := 4715315 } ∧
    float_399_9.units = 13103923 * 2 ^ 134 ∧
    CameraZoom exampleFarOut (-1) = Except.ok ({ exampleFarOut with
      CameraBoom := { exampleFarOut.CameraBoom with
        TargetArmLength := FMath.Clamp (16777216 + (-(-1)) * 1) 100 33554432 } }, []) ∧
    FMath.Clamp ((16777216 : Binary32) + (-(-1)) * 1) 100 33554432 = 16777216 :=
  ⟨by decide, by decide, rfl, rfl,
    CameraZoom_subtracts_input_times_step exampleFineStep 1 (by decide) (by decide),
    by decide, by decide, by decide,
    CameraZoom_subtracts_input_times_step exampleFarOut (-1) (by decide) (by decide),
    by decide⟩

/-! ## Absent player controller -/

/-- C9, as stated, fails.  Under a controller that is not a player controller (so with a
null `PlayerControllerRef`) `Move` issues its two movement inputs, and `Look` with the button
flag set passes its `Controller` check and then calls through the null reference.  And a
character that goes through `BeginPlay` with no controller keeps a null
`PlayerControllerRef`; on that state, and on the state reached when a player controller
takes possession afterwards, `LeftClickStarted` and `LeftClickCompleted` call a member
function through the null reference. -/
theorem handlers_without_player_controller_reference :
    (exampleOtherPossessed.PlayerControllerRef = none ∧
      Move exampleEngine exampleOtherPossessed { X := 1, Y := 2 } =
        Except.ok (exampleOtherPossessed,
          [EngineCall.AddMovementInput EAxis.X 90 2, EngineCall.AddMovementInput EAxis.Y 90 1]) ∧
      Look exampleOtherPressed { X := 1, Y := 2 } = Except.error Fault.NullDereference) ∧
    (BeginPlay exampleEngine exampleSpawnedUnpossessed = Except.ok (exampleUnpossessed, []) ∧
      exampleUnpossessed.Controller = none ∧
      exampleUnpossessed.PlayerControllerRef = none ∧
      LeftClickStarted exampleEngine exampleUnpossessed =
        Except.error Fault.NullDereference ∧
      LeftClickCompleted exampleEngine exampleUnpossessed =
        Except.error Fault.NullDereference ∧
      LeftClickStarted exampleEngine exampleLatePossessed =
        Except.error Fault.NullDereference ∧
      LeftClickCompleted exampleEngine exampleLatePossessed =
        Except.error Fault.NullDereference) :=
  ⟨⟨rfl, rfl, rfl⟩, rfl, rfl, rfl, rfl, rfl, rfl, rfl⟩

/-- C9, amended: in every player state whose `Controller` is null, `Move`, `Look` and
`CameraZoom` complete without a fault, issue no engine call and leave every field of the
player state unchanged, for every input value. -/
theorem Move_Look_CameraZoom_silent_without_controller [FloatArith F]
    (eng : Engine F) (s : ARaidPrototypeCharacter F) (Value : FVector2D F) (Zoom : F)
    (hc : s.Controller = none) :
    Move eng s Value = Except.ok (s, []) ∧ Look s Value = Except.ok (s, []) ∧
      CameraZoom s Zoom = Except.ok (s, []) := by
  refine ⟨by simp [Move, hc], ?_, CameraZoom_skipped s Zoom (Or.inr hc)⟩
  cases hp : s.bIsLeftClickPressed <;> simp [Look, hc, hp]

/-- Witness for C9, amended: an unpossessed character ignores move, look and zoom input. -/
theorem Move_Look_CameraZoom_silent_without_controller_witness :
    exampleUnpossessed.Controller = none ∧
    Move exampleEngine exampleUnpossessed { X := 1, Y := 2 } =
      Except.ok (exampleUnpossessed, []) ∧
    Look exampleUnpossessed { X := 1, Y := 2 } = Except.ok (exampleUnpossessed, []) ∧
    CameraZoom exampleUnpossessed 3 = Except.ok (exampleUnpossessed, []) :=
  ⟨rfl, Move_Look_CameraZoom_silent_without_controller exampleEngine exampleUnpossessed
    { X := 1, Y := 2 } 3 rfl⟩

/-! ## Click timer -/

/-- C10: from any state holding a player controller reference, `LeftClickStarted` completes
with `bIsLeftClickPressed` true and `TimeSinceLeftClick` zero; `Tick` adds the frame delta to
`TimeSinceLeftClick` (and nothing else) while the flag is true and changes nothing while it is
false; and after ticking the frame deltas d1..dn the timer is exactly 0 + d1 + ... + dn, the
float sum accumulated from zero in frame order, so that the following `LeftClickCompleted`
completes and re-chooses the target (from its hit test) exactly when that sum is below
`LeftClickTimer`, whatever the timer, the flag and the cursor were before the press. -/
theorem click_timer_accounting [FloatArith F] (eng eng2 : Engine F)
    (s : ARaidPrototypeCharacter F) (pc : ObjectPtr) (hpc : s.PlayerControllerRef = some pc)
    (deltas : List F) :
    (∀ (t : ARaidPrototypeCharacter F) (d : F),
      (t.bIsLeftClickPressed = true →
        Tick t d = { t with TimeSinceLeftClick := t.TimeSinceLeftClick + d }) ∧
      (t.bIsLeftClickPressed = false → Tick t d = t)) ∧
    ∃ s1 calls1, LeftClickStarted eng s = Except.ok (s1, calls1) ∧
      s1.bIsLeftClickPressed = true ∧ s1.TimeSinceLeftClick = 0 ∧
      (TickAll s1 deltas).TimeSinceLeftClick = AccumulatedTime deltas ∧
      ∃ s2 calls2, LeftClickCompleted eng2 (TickAll s1 deltas) = Except.ok (s2, calls2) ∧
        s2.CurrentTarget =
          if AccumulatedTime deltas < s.LeftClickTimer then CastATestBoss eng2.HitActor
          else s.CurrentTarget := by
  constructor
  · intro t d
    constructor
    · intro ht
      simp [Tick, ht]
    · intro ht
      simp [Tick, ht]
  · refine ⟨_, _, LeftClickStarted_eq eng s pc hpc, rfl, rfl, ?_, ?_⟩
    · rw [TickAll_pressed deltas _ rfl]
      rfl
    · refine ⟨_, _, LeftClickCompleted_eq eng2 _ pc ?_, ?_⟩
      · rw [TickAll_pressed deltas _ rfl]
        exact hpc
      · rw [TickAll_pressed deltas _ rfl]
        rfl

/-- Witness for C10: the character targets boss 41, its threshold is `0.3f`, its timer still
holds 5, and the cursor is over boss 42.  Pressed and released after two frames of `0.1f`
the timer is `0.2f`, below the threshold, and boss 42 is selected; after three frames of
`0.1f` the timer is `0.3f`, not below the threshold, and boss 41 stays selected. -/
theorem click_timer_accounting_witness :
    exampleClicker.PlayerControllerRef = some 7 ∧ exampleClicker.TimeSinceLeftClick = 5 ∧
    exampleClicker.LeftClickTimer = float_0_3 ∧ exampleClicker.CurrentTarget = some 41 ∧
    (∃ s1 calls1, LeftClickStarted exampleEngine exampleClicker = Except.ok (s1, calls1) ∧
      (TickAll s1 [float_0_1, float_0_1]).TimeSinceLeftClick = float_0_2 ∧
      ∃ s2 calls2,
        LeftClickCompleted exampleEngineBoss42 (TickAll s1 [float_0_1, float_0_1]) =
          Except.ok (s2, calls2) ∧
        s2.CurrentTarget = some 42) ∧
    (∃ s1 calls1, LeftClickStarted exampleEngine exampleClicker = Except.ok (s1, calls1) ∧
      (TickAll s1 [float_0_1, float_0_1, float_0_1]).TimeSinceLeftClick = float_0_3 ∧
      ∃ s2 calls2,
        LeftClickCompleted exampleEngineBoss42 (TickAll s1 [float_0_1, float_0_1, float_0_1]) =
          Except.ok (s2, calls2) ∧
        s2.CurrentTarget = some 41) := by
  obtain ⟨_, s1, calls1, h1, _, _, h4, s2, calls2, h5, h6⟩ :=
    click_timer_accounting exampleEngine exampleEngineBoss42 exampleClicker 7 rfl
      [float_0_1, float_0_1]
  obtain ⟨_, t1, callt1, k1, _, _, k4, t2, callt2, k5, k6⟩ :=
    click_timer_accounting exampleEngine exampleEngineBoss42 exampleClicker 7 rfl
      [float_0_1, float_0_1, float_0_1]
  exact ⟨rfl, rfl, rfl, rfl, ⟨s1, calls1, h1, h4, s2, calls2, h5, h6⟩,
    ⟨t1, callt1, k1, k4, t2, callt2, k5, k6⟩⟩

end Claims

end RaidPrototype
